import Mathlib

/-!
Verification of the input dispatch core of a terminal text editor.

The development shallowly embeds the `Controller` event loop of
`src/control.rs` together with the protocol types it consumes.  External
collaborators that are absent from the core sources (the key type's
rendering, the `Bindings` resolver of `bind.rs`, the `InputEditor` of
`input.rs`, the workspace/environment display surface) are modelled from
the specification at their interface boundary, as noted on each
definition.  Display and environment side effects are recorded as an
explicit effect trace so that frame conditions ("the alert line is not
touched") are expressible.
-/

set_option maxRecDepth 8192

namespace Ded

/-- Modifier combination attached to named keys.  Modelled from the spec:
`key.rs` is external to the core sources; constructors follow the usage
visible in `main.rs` (`Modifier::None`, `Modifier::ShiftControl`, ...). -/
inductive Modifier where
  | None
  | Shift
  | Control
  | ShiftControl
deriving DecidableEq, Repr

/-- One input event.  Modelled from the spec: `key.rs` is external; the
constructors follow the spec's data model (printable character, control
code, named keys with a modifier, and the idle sentinel) and the usage in
`control.rs` / `main.rs`.  Keys compare structurally. -/
inductive Key where
  | None
  | Char (c : Char)
  | Control (n : Nat)
  | Up (m : Modifier)
  | Down (m : Modifier)
  | Left (m : Modifier)
  | Right (m : Modifier)
  | PageUp (m : Modifier)
  | PageDown (m : Modifier)
  | Home (m : Modifier)
  | End (m : Modifier)
deriving DecidableEq, Repr

/-- The universal cancel key: `const CTRL_G: Key = Key::Control(7)`. -/
def CTRL_G : Key := Key.Control 7

/-- Outcome of the question line editor for one processed key.  Modelled
from the spec: `input.rs` is external; the three directives are those
consumed by `Controller::run`. -/
inductive Directive where
  | Continue
  | Accept
  | Cancel
deriving DecidableEq, Repr

/-- An action returned by an editing function or an answer callback, to be
carried out by the Controller.  Embeds the shape consumed exhaustively by
`Controller::run` (`Action::Quit`, `Action::Alert`, `Action::Question`);
operation functions and answer callbacks return `Except err (Option Action)`
mirroring `Result<Option<Action>>`, with `none` as the no-op case.  The
answer function of a `Question` takes the optional accepted text (the
environment argument is opaque to the dispatch core and its mutations are
tracked separately as effects). -/
inductive Action : Type where
  | Quit : Action
  | Alert : String → Action
  | Question : String → (Option String → Except String (Option Action)) → Action

/-- The answer-callback type `AnswerFn`, invoked with `some text` on
acceptance and `none` on cancellation. -/
def AnswerFn : Type := Option String → Except String (Option Action)

/-- One editing operation as seen by the dispatch core: an identifier (so
that invocations are observable in the effect trace) and the result the
operation returns (its environment mutations are opaque to the core). -/
structure Op where
  id : Nat
  result : Except String (Option Action)

/-- The key-sequence resolver.  Modelled from the spec: `bind.rs` is
external to the core sources; §4.1 specifies an exact-match `find` and a
strict-prefix query over a mapping from key sequences to operations, built
once before the loop starts. -/
structure Bindings where
  table : List (List Key × Op)

/-- Exact lookup of a key sequence in the binding table. -/
def lookupSeq : List (List Key × Op) → List Key → Option Op
  | [], _ => none
  | e :: rest, s => if e.1 = s then some e.2 else lookupSeq rest s

/-- `Bindings::find`: returns the bound operation only on an exact match. -/
def Bindings.find (b : Bindings) (s : List Key) : Option Op :=
  lookupSeq b.table s

/-- True iff `s` is a strict, proper prefix of some bound sequence in the
table (some strictly longer bound sequence begins with exactly these keys). -/
def hasStrictPre (s : List Key) : List (List Key × Op) → Bool
  | [] => false
  | e :: rest => (decide (s <+: e.1) && decide (s.length < e.1.length)) || hasStrictPre s rest

/-- The resolver's strict-prefix query of §4.1. -/
def Bindings.is_prefix (b : Bindings) (s : List Key) : Bool :=
  hasStrictPre s b.table

/-- The line editor used by a Question, as visible to the core: the prompt
it was seeded with and the keys forwarded to it so far.  Modelled from the
spec: `input.rs` is external; the Controller never inspects the editor
beyond its directive for each key and its committed buffer. -/
structure InputEditor where
  prompt : String
  hist : List Key

/-- Behaviour of the external line editor, supplied as a parameter: the
directive produced for the next key given the prompt and the keys processed
so far, and the committed buffer contents.  Modelled from the spec (§4.3). -/
structure EditorModel where
  dirFn : String → List Key → Key → Directive
  bufFn : String → List Key → String

/-- `InputEditor::process_key`: returns the directive for the key and the
editor after absorbing it. -/
def InputEditor.process_key (EM : EditorModel) (ed : InputEditor) (k : Key) :
    Directive × InputEditor :=
  (EM.dirFn ed.prompt ed.hist k, ⟨ed.prompt, ed.hist ++ [k]⟩)

/-- `InputEditor::buffer`: the committed buffer contents. -/
def InputEditor.buffer (EM : EditorModel) (ed : InputEditor) : String :=
  EM.bufFn ed.prompt ed.hist

/-- A modal prompt: pairs the line editor with its answer callback. -/
structure Question where
  editor : InputEditor
  answer_fn : AnswerFn

/-- Observable side effects issued by the dispatch core to its external
collaborators (workspace display, environment, editors). -/
inductive Effect where
  | insertChar (c : Char)
  | setAlertW (text : String)
  | clearAlertW
  | showCursor
  | clearShared
  | resize
  | invokeOp (id : Nat)
  | invokeAnswer (arg : Option String)
deriving DecidableEq, Repr

/-- The dispatch `Context` of `control.rs`: pending key sequence, optional
alert timestamp, optional active question, optional resize-debounce start
time.  Instants are modelled as natural-number milliseconds. -/
structure Context where
  key_seq : List Key
  last_alert : Option Nat
  question : Option Question
  term_changed : Option Nat

/-- One iteration's input: the key read, the current wall-clock time in
milliseconds, and the terminal size oracle's answer (consulted only on
idle ticks). -/
structure Input where
  key : Key
  now : Nat
  sizeChanged : Bool

/-- Result of one loop iteration: the updated context, the effects issued,
and whether the loop breaks (`Action::Quit`). -/
structure StepRes where
  ctx : Context
  effects : List Effect
  quit : Bool

/-- Number of milliseconds the controller waits before resizing:
`TERM_CHANGE_DELAY`. -/
def TERM_CHANGE_DELAY : Nat := 100

/-- Rendering of a single key.  Modelled from the spec: the `Display`
implementation for `Key` lives in the external `key.rs`; only an opaque
textual rendering is needed here. -/
def keyStr : Key → String
  | Key.None => "none"
  | Key.Char c => String.mk [c]
  | Key.Control n => "C-" ++ toString n
  | Key.Up _ => "up"
  | Key.Down _ => "down"
  | Key.Left _ => "left"
  | Key.Right _ => "right"
  | Key.PageUp _ => "page-up"
  | Key.PageDown _ => "page-down"
  | Key.Home _ => "home"
  | Key.End _ => "end"

/-- The `KeySeq` display wrapper of `control.rs`: keys joined by spaces. -/
def keySeqStr (s : List Key) : String :=
  String.intercalate " " (s.map keyStr)

/-- `Controller::set_alert`: sets the workspace alert text, records the
current time, and re-shows the cursor of the active editor. -/
def set_alert (c : Context) (now : Nat) (text : String) : Context × List Effect :=
  ({ c with last_alert := some now }, [Effect.setAlertW text, Effect.showCursor])

/-- `Controller::clear_alert`: clears the alert only if one is displayed. -/
def clear_alert (c : Context) : Context × List Effect :=
  match c.last_alert with
  | some _ => ({ c with last_alert := none }, [Effect.clearAlertW, Effect.showCursor])
  | none => (c, [])

/-- `Controller::clear_question`: tears down the prompt only if one is
active. -/
def clear_question (c : Context) : Context × List Effect :=
  match c.question with
  | some _ => ({ c with question := none }, [Effect.clearShared, Effect.showCursor])
  | none => (c, [])

/-- `Controller::set_question`: constructs a fresh line editor seeded with
the prompt and activates the question. -/
def set_question (c : Context) (prompt : String) (f : AnswerFn) : Context :=
  { c with question := some ⟨⟨prompt, []⟩, f⟩ }

/-- `Controller::clear_keys`: clears the pending key sequence. -/
def clear_keys (c : Context) : Context :=
  { c with key_seq := [] }

/-- `Controller::possible_char`: detects the fast-path case of a single
character key while the pending sequence is empty. -/
def possible_char (c : Context) (key : Key) : Option Char :=
  if c.key_seq = [] then
    match key with
    | Key.Char ch => some ch
    | _ => none
  else
    none

/-- `Controller::show_keys`: displays the pending sequence as the alert. -/
def show_keys (c : Context) (now : Nat) : Context × List Effect :=
  set_alert c now (keySeqStr c.key_seq)

/-- `Controller::show_undefined_keys`: displays the undefined-sequence
alert, with "key" for a single key and "key sequence" otherwise. -/
def show_undefined_keys (c : Context) (now : Nat) : Context × List Effect :=
  set_alert c now
    (keySeqStr c.key_seq ++ ": undefined " ++
      (if c.key_seq.length = 1 then "key" else "key sequence"))

/-- The action application of the Question branch (`control.rs` lines
152-162): `Quit` breaks, `Alert` sets the alert, `Question` clears the
alert then activates the prompt, and the absent action does nothing. -/
def apply_action_q (c : Context) (now : Nat) (a : Option Action) :
    Context × List Effect × Bool :=
  match a with
  | some Action.Quit => (c, [], true)
  | some (Action.Alert text) =>
    (let r := set_alert c now text
     (r.1, r.2, false))
  | some (Action.Question prompt f) =>
    (let r := clear_alert c
     (set_question r.1 prompt f, r.2, false))
  | none => (c, [], false)

/-- The action application of the Normal branch (`control.rs` lines
176-188): identical to the Question branch except that the absent action
clears any existing alert. -/
def apply_action_n (c : Context) (now : Nat) (a : Option Action) :
    Context × List Effect × Bool :=
  match a with
  | some Action.Quit => (c, [], true)
  | some (Action.Alert text) =>
    (let r := set_alert c now text
     (r.1, r.2, false))
  | some (Action.Question prompt f) =>
    (let r := clear_alert c
     (set_question r.1 prompt f, r.2, false))
  | none =>
    (let r := clear_alert c
     (r.1, r.2, false))

/-- One iteration of `Controller::run`'s loop body: reads one key's worth
of input and performs the corresponding transition.  `Key::None` idle
ticks do resize-debounce bookkeeping; otherwise the key is routed to the
active question if any, else through the fast character path, the Ctrl-G
reset, or binding resolution.  Errors of operation and answer callbacks
propagate out (the `?` operator). -/
def step (EM : EditorModel) (B : Bindings) (ctx : Context) (inp : Input) :
    Except String StepRes :=
  if inp.key = Key.None then
    if inp.sizeChanged then
      .ok ⟨{ ctx with term_changed := some inp.now }, [], false⟩
    else
      match ctx.term_changed with
      | some time =>
        if inp.now - time > TERM_CHANGE_DELAY then
          .ok ⟨{ ctx with term_changed := none }, [Effect.resize], false⟩
        else
          .ok ⟨{ ctx with term_changed := some time }, [], false⟩
      | none => .ok ⟨{ ctx with term_changed := none }, [], false⟩
  else
    match ctx.question with
    | some q =>
      if inp.key = CTRL_G then
        match q.answer_fn none with
        | .error e => .error e
        | .ok a =>
          (let r1 := clear_question ctx
           let r2 := apply_action_q r1.1 inp.now a
           .ok ⟨r2.1, Effect.invokeAnswer none :: (r1.2 ++ r2.2.1), r2.2.2⟩)
      else
        (let pr := InputEditor.process_key EM q.editor inp.key
         let ctxE := { ctx with question := some ⟨pr.2, q.answer_fn⟩ }
         match pr.1 with
         | Directive.Continue =>
           (let r2 := apply_action_q ctxE inp.now none
            .ok ⟨r2.1, r2.2.1, r2.2.2⟩)
         | Directive.Accept =>
           match q.answer_fn (some (InputEditor.buffer EM pr.2)) with
           | .error e => .error e
           | .ok a =>
             (let r1 := clear_question ctxE
              let r2 := apply_action_q r1.1 inp.now a
              .ok ⟨r2.1,
                Effect.invokeAnswer (some (InputEditor.buffer EM pr.2)) :: (r1.2 ++ r2.2.1),
                r2.2.2⟩)
         | Directive.Cancel =>
           (let r1 := clear_question ctxE
            let r2 := apply_action_q r1.1 inp.now none
            .ok ⟨r2.1, r1.2 ++ r2.2.1, r2.2.2⟩))
    | none =>
      match possible_char ctx inp.key with
      | some c =>
        (let r := clear_alert ctx
         .ok ⟨r.1, Effect.insertChar c :: r.2, false⟩)
      | none =>
        if inp.key = CTRL_G then
          (let r := clear_alert (clear_keys ctx)
           .ok ⟨r.1, r.2, false⟩)
        else
          (let ctx1 := { ctx with key_seq := ctx.key_seq ++ [inp.key] }
           match Bindings.find B ctx1.key_seq with
           | some op =>
             match op.result with
             | .error e => .error e
             | .ok a =>
               (let r := apply_action_n ctx1 inp.now a
                if r.2.2 then
                  .ok ⟨r.1, Effect.invokeOp op.id :: r.2.1, true⟩
                else
                  .ok ⟨clear_keys r.1, Effect.invokeOp op.id :: r.2.1, false⟩)
           | none =>
             if Bindings.is_prefix B ctx1.key_seq then
               (let r := show_keys ctx1 inp.now
                .ok ⟨r.1, r.2, false⟩)
             else
               (let r := show_undefined_keys ctx1 inp.now
                .ok ⟨clear_keys r.1, r.2, false⟩))

/-- Feeding a list of inputs through successive loop iterations,
accumulating effects; the loop stops reading once `Quit` breaks it. -/
def feed (EM : EditorModel) (B : Bindings) :
    Context → List Input → Except String (Context × List Effect × Bool)
  | ctx, [] => .ok (ctx, [], false)
  | ctx, inp :: rest =>
    match step EM B ctx inp with
    | .error e => .error e
    | .ok r =>
      if r.quit then .ok (r.ctx, r.effects, true)
      else
        match feed EM B r.ctx rest with
        | .error e => .error e
        | .ok (c', es', q') => .ok (c', r.effects ++ es', q')

/-- Inputs that feed the given keys one at a time at a fixed time, with no
size change reported. -/
def inputsOf (s : List Key) (now : Nat) : List Input :=
  s.map (fun k => ⟨k, now, false⟩)

/-- Number of answer-callback invocations recorded in an effect trace. -/
def countAnswerCalls (es : List Effect) : Nat :=
  es.countP (fun e => match e with | Effect.invokeAnswer _ => true | _ => false)

/-- Number of operation invocations recorded in an effect trace. -/
def countOpCalls (es : List Effect) : Nat :=
  es.countP (fun e => match e with | Effect.invokeOp _ => true | _ => false)

/-- The historical `Action` enum of `src/op.rs` (an older iteration of the
same repository, superseded by the shape consumed in `control.rs`). -/
inductive OpRsAction where
  | Nothing
  | Continue
  | Alert (text : String)
  | UndefinedKey
  | Quit
deriving DecidableEq, Repr

/-- The alert display issued after each key of an unresolved prefix chain:
feeding keys `s'` on top of already-pending keys `t` shows the accumulated
sequence after every key. -/
def prefixAlerts (t : List Key) : List Key → List Effect
  | [] => []
  | k :: rest =>
    Effect.setAlertW (keySeqStr (t ++ [k])) :: Effect.showCursor :: prefixAlerts (t ++ [k]) rest

/-- Clearing the alert leaves the rest of the context intact and blanks the
timestamp. -/
lemma clear_alert_fst (c : Context) : (clear_alert c).1 = { c with last_alert := none } := by
  obtain ⟨ks, la, qo, tc⟩ := c
  cases la <;> rfl

/-- Applying an action in Question state never invokes an answer callback. -/
lemma countAnswer_apply_q (c : Context) (now : Nat) (a : Option Action) :
    countAnswerCalls (apply_action_q c now a).2.1 = 0 := by
  match a with
  | none => rfl
  | some Action.Quit => rfl
  | some (Action.Alert t) => rfl
  | some (Action.Question p f) =>
    simp only [apply_action_q]
    obtain ⟨ks, la, qo, tc⟩ := c
    cases la <;> rfl

/-- Applying an action in Normal state never invokes an operation. -/
lemma countOp_apply_n (c : Context) (now : Nat) (a : Option Action) :
    countOpCalls (apply_action_n c now a).2.1 = 0 := by
  match a with
  | none =>
    simp only [apply_action_n]
    obtain ⟨ks, la, qo, tc⟩ := c
    cases la <;> rfl
  | some Action.Quit => rfl
  | some (Action.Alert t) => rfl
  | some (Action.Question p f) =>
    simp only [apply_action_n]
    obtain ⟨ks, la, qo, tc⟩ := c
    cases la <;> rfl

/-- The quit flag of action application is set exactly for `Quit`. -/
lemma apply_n_quit_iff (c : Context) (now : Nat) (a : Option Action) :
    (apply_action_n c now a).2.2 = true ↔ a = some Action.Quit := by
  match a with
  | none => simp [apply_action_n]
  | some Action.Quit => simp [apply_action_n]
  | some (Action.Alert t) => simp [apply_action_n, set_alert]
  | some (Action.Question p f) => simp [apply_action_n]

/-- A prefix of a sequence that is itself a strict prefix of a bound
sequence is also a strict prefix of that bound sequence. -/
lemma hasStrictPre_mono (t s : List Key) (tbl : List (List Key × Op))
    (hts : t <+: s) (hs : hasStrictPre s tbl = true) : hasStrictPre t tbl = true := by
  induction tbl with
  | nil => simp [hasStrictPre] at hs
  | cons e rest ih =>
    simp only [hasStrictPre, Bool.or_eq_true, Bool.and_eq_true, decide_eq_true_eq] at hs ⊢
    rcases hs with ⟨h1, h2⟩ | h3
    · exact Or.inl ⟨hts.trans h1, lt_of_le_of_lt hts.length_le h2⟩
    · exact Or.inr (ih h3)

/-- Claim C4: on idle ticks with no reported size change, two consecutive ticks
less than 100 ms after the debounce timer started never commit a resize
and leave the timer running; a later tick past the 100 ms threshold
commits exactly one resize and clears the timer, after which a further
no-change tick does nothing; a reported size change always restarts the
timer at the current instant. -/
theorem resize_debounce (EM : EditorModel) (B : Bindings) (ctx : Context)
    (t n1 n2 n3 n4 : Nat)
    (hc : ctx.term_changed = some t)
    (h1 : n1 - t < 100) (h2 : n2 - t < 100) (h3 : n3 - t > 100) :
    step EM B ctx ⟨Key.None, n1, false⟩ = .ok ⟨ctx, [], false⟩
    ∧ step EM B ctx ⟨Key.None, n2, false⟩ = .ok ⟨ctx, [], false⟩
    ∧ step EM B ctx ⟨Key.None, n3, false⟩ =
        .ok ⟨{ ctx with term_changed := none }, [Effect.resize], false⟩
    ∧ step EM B { ctx with term_changed := none } ⟨Key.None, n4, false⟩ =
        .ok ⟨{ ctx with term_changed := none }, [], false⟩
    ∧ (∀ (c : Context) (n : Nat),
        step EM B c ⟨Key.None, n, true⟩ = .ok ⟨{ c with term_changed := some n }, [], false⟩) := by
  obtain ⟨ks, la, qo, tc⟩ := ctx
  simp only [Context.mk.injEq] at hc
  subst hc
  refine ⟨?_, ?_, ?_, ?_, ?_⟩
  · simp only [step, TERM_CHANGE_DELAY]
    rw [if_pos trivial, if_neg (by simp), if_neg (by omega)]
  · simp only [step, TERM_CHANGE_DELAY]
    rw [if_pos trivial, if_neg (by simp), if_neg (by omega)]
  · simp only [step, TERM_CHANGE_DELAY]
    rw [if_pos trivial, if_neg (by simp), if_pos (by omega)]
  · simp only [step]
    rw [if_pos trivial, if_neg (by simp)]
  · intro c n
    obtain ⟨ks', la', qo', tc'⟩ := c
    simp [step]

/-- Claim C4 witness: a concrete debounce run with the timer started at 10 ms
and ticks at 50, 90 and 200 ms. -/
theorem resize_debounce_witness :
    step ⟨fun _ _ _ => Directive.Continue, fun _ _ => ""⟩ ⟨[]⟩
        ⟨[], none, none, some 10⟩ ⟨Key.None, 50, false⟩ =
      .ok ⟨⟨[], none, none, some 10⟩, [], false⟩
    ∧ step ⟨fun _ _ _ => Directive.Continue, fun _ _ => ""⟩ ⟨[]⟩
        ⟨[], none, none, some 10⟩ ⟨Key.None, 90, false⟩ =
      .ok ⟨⟨[], none, none, some 10⟩, [], false⟩
    ∧ step ⟨fun _ _ _ => Directive.Continue, fun _ _ => ""⟩ ⟨[]⟩
        ⟨[], none, none, some 10⟩ ⟨Key.None, 200, false⟩ =
      .ok ⟨⟨[], none, none, none⟩, [Effect.resize], false⟩
    ∧ step ⟨fun _ _ _ => Directive.Continue, fun _ _ => ""⟩ ⟨[]⟩
        ⟨[], none, none, none⟩ ⟨Key.None, 300, false⟩ =
      .ok ⟨⟨[], none, none, none⟩, [], false⟩
    ∧ (∀ (c : Context) (n : Nat),
        step ⟨fun _ _ _ => Directive.Continue, fun _ _ => ""⟩ ⟨[]⟩ c ⟨Key.None, n, true⟩ =
          .ok ⟨{ c with term_changed := some n }, [], false⟩) :=
  resize_debounce ⟨fun _ _ _ => Directive.Continue, fun _ _ => ""⟩ ⟨[]⟩
    ⟨[], none, none, some 10⟩ 10 50 90 200 300 rfl (by omega) (by omega) (by omega)

/-- Claim C5: a plain character key received with an empty pending sequence and
no active Question is inserted directly into the active editor and any
alert is cleared; the pending sequence is untouched, no operation is
invoked, and the result does not depend on the Bindings resolver (neither
`find` nor the strict-prefix query is consulted). -/
theorem fast_path_char_insert (EM : EditorModel) (B : Bindings) (ctx : Context)
    (c : Char) (now : Nat) (sc : Bool)
    (hq : ctx.question = none) (hk : ctx.key_seq = []) :
    step EM B ctx ⟨Key.Char c, now, sc⟩ =
      .ok ⟨{ ctx with last_alert := none }, Effect.insertChar c :: (clear_alert ctx).2, false⟩
    ∧ ({ ctx with last_alert := none } : Context).key_seq = ctx.key_seq
    ∧ countOpCalls (Effect.insertChar c :: (clear_alert ctx).2) = 0
    ∧ (∀ B2 : Bindings, step EM B ctx ⟨Key.Char c, now, sc⟩ = step EM B2 ctx ⟨Key.Char c, now, sc⟩) := by
  obtain ⟨ks, la, qo, tc⟩ := ctx
  subst hq
  subst hk
  cases la <;> exact ⟨rfl, rfl, rfl, fun B2 => rfl⟩

/-- Claim C5 witness: inserting the character q with an alert displayed. -/
theorem fast_path_char_insert_witness :
    step ⟨fun _ _ _ => Directive.Continue, fun _ _ => ""⟩ ⟨[]⟩
        ⟨[], some 2, none, some 7⟩ ⟨Key.Char 'q', 11, false⟩ =
      .ok ⟨{ (⟨[], some 2, none, some 7⟩ : Context) with last_alert := none },
        Effect.insertChar 'q' :: (clear_alert ⟨[], some 2, none, some 7⟩).2, false⟩
    ∧ ({ (⟨[], some 2, none, some 7⟩ : Context) with last_alert := none } : Context).key_seq =
        (⟨[], some 2, none, some 7⟩ : Context).key_seq
    ∧ countOpCalls (Effect.insertChar 'q' :: (clear_alert ⟨[], some 2, none, some 7⟩).2) = 0
    ∧ (∀ B2 : Bindings,
        step ⟨fun _ _ _ => Directive.Continue, fun _ _ => ""⟩ ⟨[]⟩
            ⟨[], some 2, none, some 7⟩ ⟨Key.Char 'q', 11, false⟩ =
          step ⟨fun _ _ _ => Directive.Continue, fun _ _ => ""⟩ B2
            ⟨[], some 2, none, some 7⟩ ⟨Key.Char 'q', 11, false⟩) :=
  fast_path_char_insert ⟨fun _ _ _ => Directive.Continue, fun _ _ => ""⟩ ⟨[]⟩
    ⟨[], some 2, none, some 7⟩ 'q' 11 false rfl rfl

/-- Claim C7: completing a pending sequence with a key such that the result is
neither bound nor a strict prefix of any bound sequence clears the pending
sequence, invokes no operation, and sets an alert whose text is the
rendered sequence followed by a colon and the word "key" when the sequence
has length 1, or "key sequence" when it is longer. -/
theorem undefined_keys_alert (EM : EditorModel) (B : Bindings) (ctx : Context)
    (k : Key) (now : Nat) (sc : Bool)
    (hq : ctx.question = none) (hpc : possible_char ctx k = none)
    (hg : k ≠ CTRL_G) (hn : k ≠ Key.None)
    (hf : Bindings.find B (ctx.key_seq ++ [k]) = none)
    (hp : Bindings.is_prefix B (ctx.key_seq ++ [k]) = false) :
    step EM B ctx ⟨k, now, sc⟩ =
      .ok ⟨⟨[], some now, none, ctx.term_changed⟩,
        [Effect.setAlertW (keySeqStr (ctx.key_seq ++ [k]) ++ ": undefined " ++
          (if (ctx.key_seq ++ [k]).length = 1 then "key" else "key sequence")),
         Effect.showCursor], false⟩ := by
  obtain ⟨ks, la, qo, tc⟩ := ctx
  subst hq
  simp only [step, show_undefined_keys, set_alert, clear_keys]
  rw [if_neg hn]
  simp only [hpc, hf]
  rw [if_neg hg, if_neg (by simp [hp])]

/-- Claim C7 witness: with an empty binding table, the two-key sequence C-2 C-3
produces the undefined-key-sequence alert and an empty pending sequence. -/
theorem undefined_keys_alert_witness :
    step ⟨fun _ _ _ => Directive.Continue, fun _ _ => ""⟩ ⟨[]⟩
        ⟨[Key.Control 2], some 4, none, none⟩ ⟨Key.Control 3, 9, false⟩ =
      .ok ⟨⟨[], some 9, none, none⟩,
        [Effect.setAlertW (keySeqStr ([Key.Control 2] ++ [Key.Control 3]) ++ ": undefined " ++
          (if ([Key.Control 2] ++ [Key.Control 3]).length = 1 then "key" else "key sequence")),
         Effect.showCursor], false⟩ :=
  undefined_keys_alert ⟨fun _ _ _ => Directive.Continue, fun _ _ => ""⟩ ⟨[]⟩
    ⟨[Key.Control 2], some 4, none, none⟩ (Key.Control 3) 9 false
    rfl rfl (by decide) (by decide) rfl rfl

/-- Claim C10: clearing an alert when none is displayed and clearing a Question
when none is active touch neither the context nor the display (no effects,
no cursor re-show), and both operations are idempotent: a second clear
after a first is always a no-op. -/
theorem clear_idempotent_frame (c : Context) :
    (c.last_alert = none → clear_alert c = (c, []))
    ∧ (c.question = none → clear_question c = (c, []))
    ∧ clear_alert (clear_alert c).1 = ((clear_alert c).1, [])
    ∧ clear_question (clear_question c).1 = ((clear_question c).1, []) := by
  obtain ⟨ks, la, qo, tc⟩ := c
  refine ⟨fun h => ?_, fun h => ?_, ?_, ?_⟩
  · subst h
    rfl
  · subst h
    rfl
  · cases la <;> rfl
  · cases qo <;> rfl

/-- Claim C10 witness: the no-alert and no-question clears at a concrete resting
context, and idempotence after clearing a displayed alert and an active
question. -/
theorem clear_idempotent_frame_witness :
    clear_alert ⟨[], none, none, none⟩ = (⟨[], none, none, none⟩, [])
    ∧ clear_question ⟨[], none, none, none⟩ = (⟨[], none, none, none⟩, [])
    ∧ clear_alert (clear_alert ⟨[], some 3, some ⟨⟨"p", []⟩, fun _ => .ok none⟩, none⟩).1 =
        ((clear_alert ⟨[], some 3, some ⟨⟨"p", []⟩, fun _ => .ok none⟩, none⟩).1, [])
    ∧ clear_question (clear_question ⟨[], some 3, some ⟨⟨"p", []⟩, fun _ => .ok none⟩, none⟩).1 =
        ((clear_question ⟨[], some 3, some ⟨⟨"p", []⟩, fun _ => .ok none⟩, none⟩).1, []) :=
  ⟨(clear_idempotent_frame ⟨[], none, none, none⟩).1 rfl,
   (clear_idempotent_frame ⟨[], none, none, none⟩).2.1 rfl,
   (clear_idempotent_frame ⟨[], some 3, some ⟨⟨"p", []⟩, fun _ => .ok none⟩, none⟩).2.2.1,
   (clear_idempotent_frame ⟨[], some 3, some ⟨⟨"p", []⟩, fun _ => .ok none⟩, none⟩).2.2.2⟩

/-- Claim C8: whenever an `Action::Question` is applied — produced by an
operation in Normal state or by an answer callback in Question state —
the displayed alert is cleared (the workspace alert-clear is issued before
the question is activated) and the new Question becomes active with a
fresh editor seeded with the prompt. -/
theorem question_clears_alert_first (EM : EditorModel) (B : Bindings)
    (ctxN ctxQ : Context) (q : Question) (k : Key) (now now2 : Nat) (sc sc2 : Bool)
    (op : Op) (p p2 : String) (f f2 : AnswerFn) (tN tQ : Nat)
    (hNq : ctxN.question = none) (hNpc : possible_char ctxN k = none)
    (hNg : k ≠ CTRL_G) (hNn : k ≠ Key.None)
    (hNf : Bindings.find B (ctxN.key_seq ++ [k]) = some op)
    (hNr : op.result = .ok (some (Action.Question p f)))
    (hNa : ctxN.last_alert = some tN)
    (hQq : ctxQ.question = some q)
    (hQa : q.answer_fn none = .ok (some (Action.Question p2 f2)))
    (hQal : ctxQ.last_alert = some tQ) :
    step EM B ctxN ⟨k, now, sc⟩ =
      .ok ⟨⟨[], none, some ⟨⟨p, []⟩, f⟩, ctxN.term_changed⟩,
        [Effect.invokeOp op.id, Effect.clearAlertW, Effect.showCursor], false⟩
    ∧ step EM B ctxQ ⟨CTRL_G, now2, sc2⟩ =
      .ok ⟨⟨ctxQ.key_seq, none, some ⟨⟨p2, []⟩, f2⟩, ctxQ.term_changed⟩,
        [Effect.invokeAnswer none, Effect.clearShared, Effect.showCursor,
         Effect.clearAlertW, Effect.showCursor], false⟩ := by
  constructor
  · obtain ⟨ks, la, qo, tc⟩ := ctxN
    subst hNq
    subst hNa
    simp only [step]
    rw [if_neg hNn]
    simp only [hNpc]
    rw [if_neg hNg]
    simp only [hNf, hNr, apply_action_n, clear_alert, set_question, clear_keys]
    rfl
  · obtain ⟨ks, la, qo, tc⟩ := ctxQ
    subst hQq
    subst hQal
    simp only [step]
    rw [if_neg (show CTRL_G ≠ Key.None by decide)]
    rw [if_pos trivial]
    simp only [hQa, clear_question, apply_action_q, clear_alert, set_question]
    rfl

/-- Claim C8 witness: an operation producing a Question and an answer callback
producing a Question, both with an alert displayed. -/
theorem question_clears_alert_first_witness :
    step ⟨fun _ _ _ => Directive.Continue, fun _ _ => ""⟩
        ⟨[([Key.Control 24], ⟨1, .ok (some (Action.Question "find: " (fun _ => .ok none)))⟩)]⟩
        ⟨[], some 4, none, none⟩ ⟨Key.Control 24, 8, false⟩ =
      .ok ⟨⟨[], none, some ⟨⟨"find: ", []⟩, fun _ => .ok none⟩, none⟩,
        [Effect.invokeOp 1, Effect.clearAlertW, Effect.showCursor], false⟩
    ∧ step ⟨fun _ _ _ => Directive.Continue, fun _ _ => ""⟩
        ⟨[([Key.Control 24], ⟨1, .ok (some (Action.Question "find: " (fun _ => .ok none)))⟩)]⟩
        ⟨[], some 6, some ⟨⟨"old", []⟩, fun _ => .ok (some (Action.Question "next: " (fun _ => .ok none)))⟩, none⟩
        ⟨CTRL_G, 9, false⟩ =
      .ok ⟨⟨[], none, some ⟨⟨"next: ", []⟩, fun _ => .ok none⟩, none⟩,
        [Effect.invokeAnswer none, Effect.clearShared, Effect.showCursor,
         Effect.clearAlertW, Effect.showCursor], false⟩ :=
  question_clears_alert_first
    ⟨fun _ _ _ => Directive.Continue, fun _ _ => ""⟩
    ⟨[([Key.Control 24], ⟨1, .ok (some (Action.Question "find: " (fun _ => .ok none)))⟩)]⟩
    ⟨[], some 4, none, none⟩
    ⟨[], some 6, some ⟨⟨"old", []⟩, fun _ => .ok (some (Action.Question "next: " (fun _ => .ok none)))⟩, none⟩
    ⟨⟨"old", []⟩, fun _ => .ok (some (Action.Question "next: " (fun _ => .ok none)))⟩
    (Key.Control 24) 8 9 false false
    ⟨1, .ok (some (Action.Question "find: " (fun _ => .ok none)))⟩
    "find: " "next: " (fun _ => .ok none) (fun _ => .ok none) 4 6
    rfl rfl (by decide) (by decide) rfl rfl rfl rfl rfl rfl

/-- Claim C2 counterexample: the claim says a NoOp produced by an answer
callback dismisses a displayed alert.  At this concrete input a Question
is accepted, the answer callback returns the absent action, and the alert
timestamp `some 5` survives untouched: no workspace alert-clear is
issued. -/
theorem noop_alert_question_state_cex :
    step ⟨fun _ _ _ => Directive.Accept, fun _ _ => "t"⟩ ⟨[]⟩
        ⟨[], some 5, some ⟨⟨"p", []⟩, fun _ => .ok none⟩, none⟩ ⟨Key.Char 'y', 9, false⟩ =
      .ok ⟨⟨[], some 5, none, none⟩,
        [Effect.invokeAnswer (some "t"), Effect.clearShared, Effect.showCursor], false⟩
    ∧ (⟨[], some 5, none, none⟩ : Context).last_alert ≠ none :=
  ⟨rfl, by decide⟩

/-- Claim C2 amended: applying a NoOp Action clears a displayed alert in Normal
state (operation-produced), but in Question state a NoOp produced by an
answer callback leaves the displayed alert in place — the two states do
not behave the same. -/
theorem noop_alert_clearing_by_state (EM : EditorModel) (B : Bindings)
    (ctxN ctxQ : Context) (q : Question) (k1 k2 : Key) (now now2 : Nat) (sc sc2 : Bool)
    (op : Op) (tN tQ : Nat)
    (hNq : ctxN.question = none) (hNpc : possible_char ctxN k1 = none)
    (hNg : k1 ≠ CTRL_G) (hNn : k1 ≠ Key.None)
    (hNf : Bindings.find B (ctxN.key_seq ++ [k1]) = some op)
    (hNr : op.result = .ok none)
    (hNa : ctxN.last_alert = some tN)
    (hQq : ctxQ.question = some q)
    (hQg : k2 ≠ CTRL_G) (hQn : k2 ≠ Key.None)
    (hQd : EM.dirFn q.editor.prompt q.editor.hist k2 = Directive.Accept)
    (hQa : q.answer_fn (some (EM.bufFn q.editor.prompt (q.editor.hist ++ [k2]))) = .ok none)
    (hQal : ctxQ.last_alert = some tQ) :
    step EM B ctxN ⟨k1, now, sc⟩ =
      .ok ⟨⟨[], none, none, ctxN.term_changed⟩,
        [Effect.invokeOp op.id, Effect.clearAlertW, Effect.showCursor], false⟩
    ∧ step EM B ctxQ ⟨k2, now2, sc2⟩ =
      .ok ⟨⟨ctxQ.key_seq, some tQ, none, ctxQ.term_changed⟩,
        [Effect.invokeAnswer (some (EM.bufFn q.editor.prompt (q.editor.hist ++ [k2]))),
         Effect.clearShared, Effect.showCursor], false⟩
    ∧ Effect.clearAlertW ∉
        [Effect.invokeAnswer (some (EM.bufFn q.editor.prompt (q.editor.hist ++ [k2]))),
         Effect.clearShared, Effect.showCursor] := by
  refine ⟨?_, ?_, by simp⟩
  · obtain ⟨ks, la, qo, tc⟩ := ctxN
    subst hNq
    subst hNa
    simp only [step]
    rw [if_neg hNn]
    simp only [hNpc]
    rw [if_neg hNg]
    simp only [hNf, hNr, apply_action_n, clear_alert, clear_keys]
    rfl
  · obtain ⟨ks, la, qo, tc⟩ := ctxQ
    subst hQq
    subst hQal
    simp only [step]
    rw [if_neg hQn]
    rw [if_neg hQg]
    simp only [InputEditor.process_key, hQd, InputEditor.buffer, hQa,
      clear_question, apply_action_q]
    rfl

/-- Claim C2 amended witness: a Normal-state NoOp clearing the alert and a
Question-state NoOp leaving it displayed, at concrete inputs. -/
theorem noop_alert_clearing_by_state_witness :
    step ⟨fun _ _ _ => Directive.Accept, fun _ _ => "t"⟩ ⟨[([Key.Control 14], ⟨2, .ok none⟩)]⟩
        ⟨[], some 5, none, none⟩ ⟨Key.Control 14, 9, false⟩ =
      .ok ⟨⟨[], none, none, none⟩,
        [Effect.invokeOp 2, Effect.clearAlertW, Effect.showCursor], false⟩
    ∧ step ⟨fun _ _ _ => Directive.Accept, fun _ _ => "t"⟩ ⟨[([Key.Control 14], ⟨2, .ok none⟩)]⟩
        ⟨[], some 5, some ⟨⟨"p", []⟩, fun _ => .ok none⟩, none⟩ ⟨Key.Char 'y', 9, false⟩ =
      .ok ⟨⟨[], some 5, none, none⟩,
        [Effect.invokeAnswer (some "t"), Effect.clearShared, Effect.showCursor], false⟩
    ∧ Effect.clearAlertW ∉
        [Effect.invokeAnswer (some "t"), Effect.clearShared, Effect.showCursor] :=
  noop_alert_clearing_by_state ⟨fun _ _ _ => Directive.Accept, fun _ _ => "t"⟩
    ⟨[([Key.Control 14], ⟨2, .ok none⟩)]⟩
    ⟨[], some 5, none, none⟩
    ⟨[], some 5, some ⟨⟨"p", []⟩, fun _ => .ok none⟩, none⟩
    ⟨⟨"p", []⟩, fun _ => .ok none⟩
    (Key.Control 14) (Key.Char 'y') 9 9 false false
    ⟨2, .ok none⟩ 5 5
    rfl rfl (by decide) (by decide) rfl rfl rfl rfl (by decide) (by decide) rfl rfl rfl

/-- Claim C1 counterexample: the claim says every cancellation — Ctrl-G or the
line editor's Cancel directive — invokes the answer function with `none`
exactly once and applies the resulting Action.  At this concrete input the
editor returns Cancel; the Question is destroyed with zero answer-callback
invocations, and the Alert the callback would have produced is never
applied. -/
theorem cancel_directive_skips_answer_cex :
    step ⟨fun _ _ _ => Directive.Cancel, fun _ _ => ""⟩ ⟨[]⟩
        ⟨[], none, some ⟨⟨"p", []⟩, fun _ => .ok (some (Action.Alert "done"))⟩, none⟩
        ⟨Key.Char 'x', 0, false⟩ =
      .ok ⟨⟨[], none, none, none⟩, [Effect.clearShared, Effect.showCursor], false⟩
    ∧ countAnswerCalls [Effect.clearShared, Effect.showCursor] = 0 :=
  ⟨rfl, rfl⟩

/-- Claim C1 amended: cancelling an active Question with Ctrl-G invokes the
answer function with `none` exactly once, destroys the Question, and
applies the resulting Action; cancellation via the line editor's Cancel
directive destroys the Question without invoking the answer function and
applies no Action. -/
theorem question_cancel_paths (EM : EditorModel) (B : Bindings) (ctx : Context)
    (q : Question) (now : Nat) (sc : Bool) (a : Option Action) (k : Key)
    (hq : ctx.question = some q)
    (ha : q.answer_fn none = .ok a)
    (hk1 : k ≠ CTRL_G) (hk2 : k ≠ Key.None)
    (hd : EM.dirFn q.editor.prompt q.editor.hist k = Directive.Cancel) :
    step EM B ctx ⟨CTRL_G, now, sc⟩ =
      .ok ⟨(apply_action_q { ctx with question := none } now a).1,
        Effect.invokeAnswer none :: Effect.clearShared :: Effect.showCursor ::
          (apply_action_q { ctx with question := none } now a).2.1,
        (apply_action_q { ctx with question := none } now a).2.2⟩
    ∧ countAnswerCalls (Effect.invokeAnswer none :: Effect.clearShared :: Effect.showCursor ::
        (apply_action_q { ctx with question := none } now a).2.1) = 1
    ∧ step EM B ctx ⟨k, now, sc⟩ =
      .ok ⟨{ ctx with question := none }, [Effect.clearShared, Effect.showCursor], false⟩
    ∧ countAnswerCalls [Effect.clearShared, Effect.showCursor] = 0 := by
  obtain ⟨ks, la, qo, tc⟩ := ctx
  subst hq
  refine ⟨?_, ?_, ?_, rfl⟩
  · simp only [step]
    rw [if_neg (show CTRL_G ≠ Key.None by decide), if_pos trivial]
    simp only [ha, clear_question]
    rfl
  · have h0 := countAnswer_apply_q ⟨ks, la, none, tc⟩ now a
    simp only [countAnswerCalls, List.countP_cons] at h0 ⊢
    simp [h0]
  · simp only [step]
    rw [if_neg hk2, if_neg hk1]
    simp only [InputEditor.process_key, hd, clear_question, apply_action_q]
    rfl

/-- Claim C1 amended witness: a concrete Question cancelled by Ctrl-G (answer
invoked once, Alert applied) and by the editor's Cancel directive (answer
not invoked). -/
theorem question_cancel_paths_witness :
    step ⟨fun _ _ _ => Directive.Cancel, fun _ _ => ""⟩ ⟨[]⟩
        ⟨[], some 3, some ⟨⟨"p", []⟩, fun _ => .ok (some (Action.Alert "bye"))⟩, none⟩
        ⟨CTRL_G, 7, false⟩ =
      .ok ⟨(apply_action_q
          { (⟨[], some 3, some ⟨⟨"p", []⟩, fun _ => .ok (some (Action.Alert "bye"))⟩, none⟩ : Context)
            with question := none } 7 (some (Action.Alert "bye"))).1,
        Effect.invokeAnswer none :: Effect.clearShared :: Effect.showCursor ::
          (apply_action_q
            { (⟨[], some 3, some ⟨⟨"p", []⟩, fun _ => .ok (some (Action.Alert "bye"))⟩, none⟩ : Context)
              with question := none } 7 (some (Action.Alert "bye"))).2.1,
        (apply_action_q
          { (⟨[], some 3, some ⟨⟨"p", []⟩, fun _ => .ok (some (Action.Alert "bye"))⟩, none⟩ : Context)
            with question := none } 7 (some (Action.Alert "bye"))).2.2⟩
    ∧ countAnswerCalls (Effect.invokeAnswer none :: Effect.clearShared :: Effect.showCursor ::
        (apply_action_q
          { (⟨[], some 3, some ⟨⟨"p", []⟩, fun _ => .ok (some (Action.Alert "bye"))⟩, none⟩ : Context)
            with question := none } 7 (some (Action.Alert "bye"))).2.1) = 1
    ∧ step ⟨fun _ _ _ => Directive.Cancel, fun _ _ => ""⟩ ⟨[]⟩
        ⟨[], some 3, some ⟨⟨"p", []⟩, fun _ => .ok (some (Action.Alert "bye"))⟩, none⟩
        ⟨Key.Char 'z', 7, false⟩ =
      .ok ⟨{ (⟨[], some 3, some ⟨⟨"p", []⟩, fun _ => .ok (some (Action.Alert "bye"))⟩, none⟩ : Context)
            with question := none }, [Effect.clearShared, Effect.showCursor], false⟩
    ∧ countAnswerCalls [Effect.clearShared, Effect.showCursor] = 0 :=
  question_cancel_paths ⟨fun _ _ _ => Directive.Cancel, fun _ _ => ""⟩ ⟨[]⟩
    ⟨[], some 3, some ⟨⟨"p", []⟩, fun _ => .ok (some (Action.Alert "bye"))⟩, none⟩
    ⟨⟨"p", []⟩, fun _ => .ok (some (Action.Alert "bye"))⟩ 7 false
    (some (Action.Alert "bye")) (Key.Char 'z')
    rfl rfl (by decide) (by decide) rfl

/-- Claim C3 counterexample: the claim says the pending sequence is cleared
after every resolved operation, including one returning Quit.  At this
concrete input the bound operation returns Quit, the loop breaks, and the
pending sequence is left equal to the fed key, not cleared. -/
theorem quit_leaves_pending_cex :
    step ⟨fun _ _ _ => Directive.Continue, fun _ _ => ""⟩
        ⟨[([Key.Control 24], ⟨0, .ok (some Action.Quit)⟩)]⟩
        ⟨[], none, none, none⟩ ⟨Key.Control 24, 0, false⟩ =
      .ok ⟨⟨[Key.Control 24], none, none, none⟩, [Effect.invokeOp 0], true⟩
    ∧ ([Key.Control 24] : List Key) ≠ [] :=
  ⟨rfl, by decide⟩

/-- Claim C3 amended: when a key completes a pending sequence that `find`
resolves to an operation in Normal state, exactly one operation invocation
occurs and the resulting Action is applied, regardless of prior alert
state; the pending sequence is cleared afterward for every Action other
than Quit, while a Quit Action terminates the loop immediately without
clearing the pending sequence. -/
theorem bound_resolution_step (EM : EditorModel) (B : Bindings) (ctx : Context)
    (k : Key) (now : Nat) (sc : Bool) (op : Op) (a : Option Action)
    (hq : ctx.question = none) (hpc : possible_char ctx k = none)
    (hg : k ≠ CTRL_G) (hn : k ≠ Key.None)
    (hf : Bindings.find B (ctx.key_seq ++ [k]) = some op)
    (hr : op.result = .ok a) :
    countOpCalls (Effect.invokeOp op.id ::
      (apply_action_n { ctx with key_seq := ctx.key_seq ++ [k] } now a).2.1) = 1
    ∧ (a ≠ some Action.Quit →
        step EM B ctx ⟨k, now, sc⟩ =
          .ok ⟨clear_keys (apply_action_n { ctx with key_seq := ctx.key_seq ++ [k] } now a).1,
            Effect.invokeOp op.id ::
              (apply_action_n { ctx with key_seq := ctx.key_seq ++ [k] } now a).2.1,
            false⟩
        ∧ (clear_keys (apply_action_n { ctx with key_seq := ctx.key_seq ++ [k] } now a).1).key_seq = [])
    ∧ (a = some Action.Quit →
        step EM B ctx ⟨k, now, sc⟩ =
          .ok ⟨{ ctx with key_seq := ctx.key_seq ++ [k] }, [Effect.invokeOp op.id], true⟩) := by
  obtain ⟨ks, la, qo, tc⟩ := ctx
  subst hq
  refine ⟨?_, fun hne => ?_, fun he => ?_⟩
  · have h0 := countOp_apply_n ⟨ks ++ [k], la, none, tc⟩ now a
    simp only [countOpCalls, List.countP_cons] at h0 ⊢
    simp [h0]
  · have hq2 : (apply_action_n ⟨ks ++ [k], la, none, tc⟩ now a).2.2 = false := by
      cases h : (apply_action_n ⟨ks ++ [k], la, none, tc⟩ now a).2.2 with
      | true => exact absurd ((apply_n_quit_iff ⟨ks ++ [k], la, none, tc⟩ now a).mp h) hne
      | false => rfl
    refine ⟨?_, rfl⟩
    simp only [step]
    rw [if_neg hn]
    simp only [hpc]
    rw [if_neg hg]
    simp only [hf, hr, hq2]
    rfl
  · subst he
    simp only [step]
    rw [if_neg hn]
    simp only [hpc]
    rw [if_neg hg]
    simp only [hf, hr, apply_action_n]
    rfl

/-- Claim C3 amended witness: an operation returning an Alert clears the pending
sequence after applying the Action; the Quit clause is instantiated
vacuously at the same input. -/
theorem bound_resolution_step_witness :
    countOpCalls (Effect.invokeOp 3 ::
      (apply_action_n { (⟨[], some 2, none, none⟩ : Context)
        with key_seq := ([] : List Key) ++ [Key.Control 24] } 6
        (some (Action.Alert "hi"))).2.1) = 1
    ∧ (some (Action.Alert "hi") ≠ some Action.Quit →
        step ⟨fun _ _ _ => Directive.Continue, fun _ _ => ""⟩
            ⟨[([Key.Control 24], ⟨3, .ok (some (Action.Alert "hi"))⟩)]⟩
            ⟨[], some 2, none, none⟩ ⟨Key.Control 24, 6, false⟩ =
          .ok ⟨clear_keys (apply_action_n { (⟨[], some 2, none, none⟩ : Context)
              with key_seq := ([] : List Key) ++ [Key.Control 24] } 6
              (some (Action.Alert "hi"))).1,
            Effect.invokeOp 3 ::
              (apply_action_n { (⟨[], some 2, none, none⟩ : Context)
                with key_seq := ([] : List Key) ++ [Key.Control 24] } 6
                (some (Action.Alert "hi"))).2.1,
            false⟩
        ∧ (clear_keys (apply_action_n { (⟨[], some 2, none, none⟩ : Context)
            with key_seq := ([] : List Key) ++ [Key.Control 24] } 6
            (some (Action.Alert "hi"))).1).key_seq = [])
    ∧ (some (Action.Alert "hi") = some Action.Quit →
        step ⟨fun _ _ _ => Directive.Continue, fun _ _ => ""⟩
            ⟨[([Key.Control 24], ⟨3, .ok (some (Action.Alert "hi"))⟩)]⟩
            ⟨[], some 2, none, none⟩ ⟨Key.Control 24, 6, false⟩ =
          .ok ⟨{ (⟨[], some 2, none, none⟩ : Context)
              with key_seq := ([] : List Key) ++ [Key.Control 24] },
            [Effect.invokeOp 3], true⟩) :=
  bound_resolution_step ⟨fun _ _ _ => Directive.Continue, fun _ _ => ""⟩
    ⟨[([Key.Control 24], ⟨3, .ok (some (Action.Alert "hi"))⟩)]⟩
    ⟨[], some 2, none, none⟩ (Key.Control 24) 6 false
    ⟨3, .ok (some (Action.Alert "hi"))⟩ (some (Action.Alert "hi"))
    rfl rfl (by decide) (by decide) rfl rfl

/-- Claim C9 counterexample: the claim says the Controller consumes the action
cases uniformly whether an operation or an answer callback produced them.
At a concrete context with a displayed alert, applying the no-op case on
the Normal (operation) path and on the Question (answer callback) path
yields different results: the former clears the alert, the latter does
not. -/
theorem action_nonuniform_noop_cex :
    apply_action_n ⟨[], some 5, none, none⟩ 9 none ≠
      apply_action_q ⟨[], some 5, none, none⟩ 9 none := by
  intro h
  have h2 := congrArg (fun r => r.1.last_alert) h
  simp [apply_action_n, apply_action_q, clear_alert] at h2

/-- Claim C9 amended: the action vocabulary consumed by the Controller is an
optional tagged value with exactly the effective cases NoOp (absence),
Quit, Alert and Question; Quit, Alert and Question are consumed uniformly
regardless of whether an operation or an answer callback produced them,
while NoOp alone is treated differently between the two paths. -/
theorem action_cases_and_uniformity :
    (∀ a : Option Action, a = none ∨ a = some Action.Quit ∨
        (∃ t, a = some (Action.Alert t)) ∨ (∃ p f, a = some (Action.Question p f)))
    ∧ (∀ (c : Context) (now : Nat) (a : Action),
        apply_action_n c now (some a) = apply_action_q c now (some a)) := by
  constructor
  · intro a
    match a with
    | none => exact Or.inl rfl
    | some Action.Quit => exact Or.inr (Or.inl rfl)
    | some (Action.Alert t) => exact Or.inr (Or.inr (Or.inl ⟨t, rfl⟩))
    | some (Action.Question p f) => exact Or.inr (Or.inr (Or.inr ⟨p, f, rfl⟩))
  · intro c now a
    match a with
    | Action.Quit => rfl
    | Action.Alert t => rfl
    | Action.Question p f => rfl

/-- A non-empty prefix chain ends by displaying the full accumulated
sequence. -/
lemma prefixAlerts_last (s' : List Key) : s' ≠ [] → ∀ t : List Key,
    ∃ es, prefixAlerts t s' =
      es ++ [Effect.setAlertW (keySeqStr (t ++ s')), Effect.showCursor] := by
  induction s' with
  | nil => intro h; exact absurd rfl h
  | cons k rest ih =>
    intro _ t
    cases rest with
    | nil => exact ⟨[], by simp [prefixAlerts]⟩
    | cons k2 r2 =>
      obtain ⟨es, he⟩ := ih (by simp) (t ++ [k])
      refine ⟨Effect.setAlertW (keySeqStr (t ++ [k])) :: Effect.showCursor :: es, ?_⟩
      rw [show prefixAlerts t (k :: k2 :: r2) =
        Effect.setAlertW (keySeqStr (t ++ [k])) :: Effect.showCursor ::
          prefixAlerts (t ++ [k]) (k2 :: r2) from rfl, he]
      simp [List.append_assoc]

/-- The prefix-chain alerts contain no operation invocation. -/
lemma countOp_prefixAlerts (s' : List Key) : ∀ t : List Key,
    countOpCalls (prefixAlerts t s') = 0 := by
  induction s' with
  | nil => intro t; rfl
  | cons k rest ih =>
    intro t
    have h0 := ih (t ++ [k])
    simp only [countOpCalls, List.countP_cons] at h0 ⊢
    simp [prefixAlerts, List.countP_cons, h0]

/-- Feeding keys that at every step leave the accumulated sequence unbound
but a strict prefix of some bound sequence keeps accumulating, alerts with
the accumulated sequence after each key, and invokes no operation. -/
lemma feed_pre_aux (EM : EditorModel) (B : Bindings) (now : Nat) :
    ∀ (s' t : List Key) (la tc : Option Nat),
    (t = [] → ∀ c : Char, s'.head? ≠ some (Key.Char c)) →
    (∀ k ∈ s', k ≠ CTRL_G ∧ k ≠ Key.None) →
    (∀ j, j < s'.length → Bindings.find B (t ++ s'.take (j+1)) = none) →
    (∀ j, j < s'.length → Bindings.is_prefix B (t ++ s'.take (j+1)) = true) →
    feed EM B ⟨t, la, none, tc⟩ (inputsOf s' now) =
      .ok (⟨t ++ s', if s'.isEmpty then la else some now, none, tc⟩, prefixAlerts t s', false) := by
  intro s'
  induction s' with
  | nil =>
    intro t la tc h1 h2 h3 h4
    simp [inputsOf, feed, prefixAlerts]
  | cons k rest ih =>
    intro t la tc h1 h2 h3 h4
    have hk := h2 k (by simp)
    have hpc : possible_char ⟨t, la, none, tc⟩ k = none := by
      cases t with
      | nil =>
        have hnc := h1 rfl
        cases k with
        | Char c => exact absurd (by simp) (hnc c)
        | _ => rfl
      | cons x xs => simp [possible_char]
    have hf0 : Bindings.find B (t ++ [k]) = none := h3 0 (by simp)
    have hp0 : Bindings.is_prefix B (t ++ [k]) = true := h4 0 (by simp)
    have hstep : step EM B ⟨t, la, none, tc⟩ ⟨k, now, false⟩ =
        .ok ⟨⟨t ++ [k], some now, none, tc⟩,
          [Effect.setAlertW (keySeqStr (t ++ [k])), Effect.showCursor], false⟩ := by
      simp only [step]
      rw [if_neg hk.2]
      simp only [hpc]
      rw [if_neg hk.1]
      simp only [hf0]
      rw [if_pos (by simp [hp0])]
      simp [show_keys, set_alert]
    have ih' := ih (t ++ [k]) (some now) tc
      (by intro habs; simp at habs)
      (fun k' hk' => h2 k' (by simp [hk']))
      (by
        intro j hj
        have := h3 (j+1) (by simpa using Nat.succ_lt_succ hj)
        simpa [List.take_succ_cons, List.append_assoc] using this)
      (by
        intro j hj
        have := h4 (j+1) (by simpa using Nat.succ_lt_succ hj)
        simpa [List.take_succ_cons, List.append_assoc] using this)
    simp only [inputsOf, List.map] at ih' ⊢
    simp only [feed, hstep]
    rw [ih']
    simp [prefixAlerts, List.append_assoc]

/-- Claim C6 counterexample: the claim quantifies over every sequence `s` that
is a strict prefix of a bound sequence and itself unbound.  Here the
table binds both the single key C-1 and the sequence C-1 C-2 C-3; the
sequence s = C-1 C-2 satisfies the claim's premises, yet feeding its
first key invokes the operation bound to C-1 and clears the pending
sequence instead of accumulating and alerting. -/
theorem prefix_feed_inner_binding_cex :
    Bindings.is_prefix ⟨[([Key.Control 1], ⟨7, .ok none⟩),
        ([Key.Control 1, Key.Control 2, Key.Control 3], ⟨8, .ok none⟩)]⟩
      [Key.Control 1, Key.Control 2] = true
    ∧ Bindings.find ⟨[([Key.Control 1], ⟨7, .ok none⟩),
        ([Key.Control 1, Key.Control 2, Key.Control 3], ⟨8, .ok none⟩)]⟩
      [Key.Control 1, Key.Control 2] = none
    ∧ feed ⟨fun _ _ _ => Directive.Continue, fun _ _ => ""⟩
        ⟨[([Key.Control 1], ⟨7, .ok none⟩),
          ([Key.Control 1, Key.Control 2, Key.Control 3], ⟨8, .ok none⟩)]⟩
        ⟨[], none, none, none⟩ (inputsOf [Key.Control 1] 5) =
      .ok (⟨[], none, none, none⟩, [Effect.invokeOp 7], false)
    ∧ countOpCalls [Effect.invokeOp 7] = 1
    ∧ ([] : List Key) ≠ [Key.Control 1] := by
  refine ⟨by decide, rfl, rfl, rfl, by decide⟩

/-- Claim C6 amended: for every non-empty key sequence s that is a strict
prefix of some bound sequence, such that every non-empty prefix of s
(s itself included) is unbound, whose first key is not a plain printable
character, and which contains neither Ctrl-G nor the idle sentinel:
feeding s one key at a time from rest in Normal state leaves the pending
sequence equal to the keys fed so far after each key, displays exactly
those keys as the alert text after each key, and invokes no operation. -/
theorem prefix_feed_alerts (EM : EditorModel) (B : Bindings) (s : List Key)
    (la tc : Option Nat) (now : Nat) (i : Nat)
    (hi1 : 1 ≤ i) (hi2 : i ≤ s.length)
    (hhead : ∀ c : Char, s.head? ≠ some (Key.Char c))
    (hmem : ∀ k ∈ s, k ≠ CTRL_G ∧ k ≠ Key.None)
    (hfind : ∀ j, j < s.length → Bindings.find B (s.take (j+1)) = none)
    (hsp : Bindings.is_prefix B s = true) :
    feed EM B ⟨[], la, none, tc⟩ (inputsOf (s.take i) now) =
      .ok (⟨s.take i, some now, none, tc⟩, prefixAlerts [] (s.take i), false)
    ∧ (∃ es, prefixAlerts [] (s.take i) =
        es ++ [Effect.setAlertW (keySeqStr (s.take i)), Effect.showCursor])
    ∧ countOpCalls (prefixAlerts [] (s.take i)) = 0 := by
  have hne : s.take i ≠ [] := by
    have : (s.take i).length = min i s.length := List.length_take i s
    intro habs
    rw [habs] at this
    simp at this
    omega
  have h1 : ([] : List Key) = [] → ∀ c : Char, (s.take i).head? ≠ some (Key.Char c) := by
    intro _ c
    cases s with
    | nil => simp at hi2; omega
    | cons a l =>
      cases i with
      | zero => omega
      | succ n => simpa using hhead c
  have h2 : ∀ k ∈ s.take i, k ≠ CTRL_G ∧ k ≠ Key.None :=
    fun k hk => hmem k (List.take_subset i s hk)
  have h3 : ∀ j, j < (s.take i).length →
      Bindings.find B ([] ++ (s.take i).take (j+1)) = none := by
    intro j hj
    rw [List.length_take] at hj
    have ht : (s.take i).take (j+1) = s.take (j+1) := by
      rw [List.take_take]
      congr 1
      omega
    rw [List.nil_append, ht]
    exact hfind j (by omega)
  have h4 : ∀ j, j < (s.take i).length →
      Bindings.is_prefix B ([] ++ (s.take i).take (j+1)) = true := by
    intro j hj
    rw [List.nil_append]
    have hp1 : (s.take i).take (j+1) <+: s.take i :=
      ⟨(s.take i).drop (j+1), List.take_append_drop (j+1) (s.take i)⟩
    have hp2 : s.take i <+: s := ⟨s.drop i, List.take_append_drop i s⟩
    exact hasStrictPre_mono _ s B.table (hp1.trans hp2) hsp
  have main := feed_pre_aux EM B now (s.take i) [] la tc h1 h2 h3 h4
  rw [List.nil_append] at main
  rw [if_neg (by simpa [List.isEmpty_iff] using hne)] at main
  exact ⟨main,
    by simpa using prefixAlerts_last (s.take i) hne [],
    countOp_prefixAlerts (s.take i) []⟩

/-- Claim C6 amended witness: feeding the two keys C-1 C-2 of a bound sequence
C-1 C-2 C-3 accumulates both keys, alerting with the accumulated sequence
after each. -/
theorem prefix_feed_alerts_witness :
    feed ⟨fun _ _ _ => Directive.Continue, fun _ _ => ""⟩
        ⟨[([Key.Control 1, Key.Control 2, Key.Control 3], ⟨9, .ok none⟩)]⟩
        ⟨[], none, none, none⟩ (inputsOf ([Key.Control 1, Key.Control 2].take 2) 5) =
      .ok (⟨[Key.Control 1, Key.Control 2].take 2, some 5, none, none⟩,
        prefixAlerts [] ([Key.Control 1, Key.Control 2].take 2), false)
    ∧ (∃ es, prefixAlerts [] ([Key.Control 1, Key.Control 2].take 2) =
        es ++ [Effect.setAlertW (keySeqStr ([Key.Control 1, Key.Control 2].take 2)),
          Effect.showCursor])
    ∧ countOpCalls (prefixAlerts [] ([Key.Control 1, Key.Control 2].take 2)) = 0 :=
  prefix_feed_alerts ⟨fun _ _ _ => Directive.Continue, fun _ _ => ""⟩
    ⟨[([Key.Control 1, Key.Control 2, Key.Control 3], ⟨9, .ok none⟩)]⟩
    [Key.Control 1, Key.Control 2] none none 5 2
    (by decide) (by decide)
    (by intro c; simp)
    (by decide)
    (by intro j hj; simp at hj; interval_cases j <;> rfl)
    (by decide)

end Ded
